import Mathlib

/-
Shallow embedding of the Z-scan plotting pipeline implemented by
process_and_plot in src/app.py: format detection via the
End_of_Header marker, numeric field extraction for the structured
(tab-separated) and delimited (comma-separated) layouts, sorting of
the samples by distance, and the Savitzky-Golay smoothing step with
its fallback.  Documents are modelled at the level of decoded lines
(a list of characters per line); floating point values are modelled
as exact rationals.
-/

namespace ZScan

/-- Python str.strip: drops leading and trailing whitespace characters. -/
def trimChars (cs : List Char) : List Char :=
  ((cs.dropWhile Char.isWhitespace).reverse.dropWhile Char.isWhitespace).reverse

/-- Python str.split with a one-character separator: keeps empty pieces,
and the empty string yields one empty piece. -/
def splitOnC (sep : Char) : List Char → List (List Char)
  | [] => [[]]
  | c :: rest =>
    match splitOnC sep rest with
    | [] => [[c]]
    | g :: gs => if c = sep then [] :: g :: gs else (c :: g) :: gs

/-- Substring containment test, Python's in operator on strings. -/
def containsSub (pat cs : List Char) : Bool :=
  cs.tails.any (fun t => pat.isPrefixOf t)

/-- Reads a run of decimal digits, accumulating the value and the number
of digits read, and returns the rest of the input. -/
def readDigits : List Char → Nat → Nat → Nat × Nat × List Char
  | [], v, k => (v, k, [])
  | c :: cs, v, k =>
    if c.isDigit then readDigits cs (10 * v + (c.toNat - 48)) (k + 1)
    else (v, k, c :: cs)

/-- Exponent digits after an optional sign: requires at least one digit
and no trailing input, and scales the mantissa by the power of ten. -/
def expTail (m : ℚ) (neg : Bool) (ds : List Char) : Option ℚ :=
  match readDigits ds 0 0 with
  | (e, k, rest) =>
    if k = 0 ∨ rest ≠ [] then none
    else some (if neg then m / 10 ^ e else m * 10 ^ e)

/-- Optional exponent part of a float literal; the whole remaining input
must be consumed. -/
def applyExp (m : ℚ) : List Char → Option ℚ
  | [] => some m
  | 'e' :: '+' :: ds => expTail m false ds
  | 'e' :: '-' :: ds => expTail m true ds
  | 'e' :: ds => expTail m false ds
  | 'E' :: '+' :: ds => expTail m false ds
  | 'E' :: '-' :: ds => expTail m true ds
  | 'E' :: ds => expTail m false ds
  | _ => none

/-- Unsigned float literal: digits with an optional fractional part, or a
leading decimal point with digits, then an optional exponent. -/
def pyFloatCore (cs : List Char) : Option ℚ :=
  match readDigits cs 0 0 with
  | (ip, ik, r1) =>
    match r1 with
    | '.' :: r2 =>
      match readDigits r2 0 0 with
      | (fp, fk, r3) =>
        if ik = 0 ∧ fk = 0 then none
        else applyExp ((ip : ℚ) + (fp : ℚ) / 10 ^ fk) r3
    | _ => if ik = 0 then none else applyExp (ip : ℚ) r1

/-- Python float() on one field, restricted to finite decimal literals:
surrounding whitespace is ignored and an optional sign precedes the
literal.  The inf and nan spellings and underscore digit grouping are
outside the modelled scope (no claim touches them), as is the rounding
of decimal literals to binary doubles: values stay exact rationals. -/
def pyFloat (s : List Char) : Option ℚ :=
  match trimChars s with
  | '+' :: r => pyFloatCore r
  | '-' :: r => (pyFloatCore r).map (fun q => -q)
  | r => pyFloatCore r

/-- Left-to-right parse of a list of fields, failing at the first field
float() rejects, as the comprehensions on lines 26 and 27 do. -/
def parseFloats : List (List Char) → Option (List ℚ)
  | [] => some []
  | v :: vs =>
    match pyFloat v with
    | none => none
    | some x =>
      match parseFloats vs with
      | none => none
      | some xs => some (x :: xs)

/-- One decoded line of an uploaded document. -/
abbrev PyLine := List Char

/-- A decoded document, as the line list splitlines on line 9 of
src/app.py produces; the byte-decode step itself is outside the
modelled core. -/
abbrev Doc := List PyLine

/-- The header marker the source tests every line for. -/
def markerChars : PyLine := ("***End_of_Header***").toList

/-- Python: the marker in line, per line. -/
def lineHasMarker (l : PyLine) : Bool := containsSub markerChars l

/-- The format-detection test on line 13 of src/app.py: whether any line
contains the marker. -/
def markerPresent (lines : Doc) : Bool := lines.any lineHasMarker

/-- The number of lines containing the marker. -/
def markerCount (lines : Doc) : Nat := lines.countP lineHasMarker

/-- The loop on lines 14-21 of src/app.py: scan the lines counting marker
lines; on the second one, record its position plus two and stop.  When
the count never reaches two, data_start_idx keeps its initial value 0. -/
def findSecond : List PyLine → Nat → Nat → Nat
  | [], _, _ => 0
  | l :: ls, i, c =>
    if lineHasMarker l then
      if c + 1 = 2 then i + 2 else findSecond ls (i + 1) (c + 1)
    else findSecond ls (i + 1) c

/-- The data_start_idx the loop computes. -/
def dataStartIdx (lines : Doc) : Nat := findSecond lines 0 0

/-- The Python exception kinds the pipeline can raise; the caller on line
127 of src/app.py catches every exception alike, and no classified error
type exists in the source. -/
inductive PyError where
  | indexError : PyError
  | valueError : PyError
  deriving DecidableEq

/-- Lines 23-27 of src/app.py for one data row: strip the line, split it
on tabs, keep the fields whose strip is nonempty, parse each as float. -/
def parseRow (l : PyLine) : Option (List ℚ) :=
  parseFloats ((splitOnC '\t' (trimChars l)).filter (fun v => !(trimChars v).isEmpty))

/-- Lines 23-27 of src/app.py: read the two data rows (raising IndexError
past the end of the document, in the order the statements execute) and
parse them (raising ValueError at a field float() rejects). -/
def extractStructured (lines : Doc) : Except PyError (List ℚ × List ℚ) :=
  match lines.get? (dataStartIdx lines) with
  | none => Except.error PyError.indexError
  | some x =>
    match lines.get? (dataStartIdx lines + 1) with
    | none => Except.error PyError.indexError
    | some y =>
      match parseRow x with
      | none => Except.error PyError.valueError
      | some ds =>
        match parseRow y with
        | none => Except.error PyError.valueError
        | some vs => Except.ok (ds, vs)

/-- Lines 30-38 of src/app.py for one line: skip blank lines and lines
with fewer than two comma fields; try to append the first field as a
distance and then the second as a voltage, abandoning the line at the
first field float() rejects.  A line whose first field parses and whose
second does not leaves the appended distance behind. -/
def delimStep (acc : List ℚ × List ℚ) (l : PyLine) : List ℚ × List ℚ :=
  if (trimChars l).isEmpty then acc
  else if (splitOnC ',' l).length < 2 then acc
  else
    match pyFloat (trimChars ((splitOnC ',' l).getD 0 [])) with
    | none => acc
    | some d =>
      match pyFloat (trimChars ((splitOnC ',' l).getD 1 [])) with
      | none => (acc.1 ++ [d], acc.2)
      | some v => (acc.1 ++ [d], acc.2 ++ [v])

/-- The delimited-format extraction loop over all lines. -/
def extractDelimited (lines : Doc) : List ℚ × List ℚ :=
  lines.foldl delimStep ([], [])

/-- The i-th entry of a rational list, zero past the end; every index the
pipeline feeds it is in range. -/
def idxVal (v : List ℚ) (i : Nat) : ℚ := (v.get? i).getD 0

/-- Modelled np.argsort on line 45 of src/app.py: the indices that sort
the distance array ascending.  numpy's default kind is quicksort
(introsort), whose tie order the numpy documentation leaves unspecified
(that kind is not stable); for arrays shorter than 17 elements numpy
runs a plain insertion sort, which this definition reproduces.  Every
theorem below is invariant under the order of tied indices. -/
def argsort (d : List ℚ) : List Nat :=
  List.insertionSort (fun i j => idxVal d i ≤ idxVal d j) (List.range d.length)

/-- Modelled numpy advanced indexing arr[indices] on lines 46-47: each
index must be in range, and an out-of-range one raises IndexError. -/
def takeIdxs (v : List ℚ) : List Nat → Except PyError (List ℚ)
  | [] => Except.ok []
  | i :: is =>
    match v.get? i with
    | none => Except.error PyError.indexError
    | some x =>
      match takeIdxs v is with
      | Except.ok xs => Except.ok (x :: xs)
      | Except.error e => Except.error e

/-- Lines 45-47 of src/app.py: reorder the distances by the argsort
indices, then the voltages by the same indices. -/
def sortPair (d v : List ℚ) : Except PyError (List ℚ × List ℚ) :=
  match takeIdxs d (argsort d) with
  | Except.error e => Except.error e
  | Except.ok ds =>
    match takeIdxs v (argsort d) with
    | Except.error e => Except.error e
    | Except.ok vs => Except.ok (ds, vs)

/-- Lines 51-53 of src/app.py: the Savitzky-Golay window length computed
from the length of the sorted distance array, with Python integer
arithmetic (the subtraction can go negative on an empty array). -/
def windowLen (n : Nat) : Nat :=
  (if min (11 : Int) ((n : Int) - (if n % 2 ≠ 0 then 0 else 1)) < 3 then 3
   else min (11 : Int) ((n : Int) - (if n % 2 ≠ 0 then 0 else 1))).toNat

/-- Dot product of two rational vectors; trailing entries of the longer
one are ignored. -/
def dotQ (a b : List ℚ) : ℚ := ((a.zip b).map (fun p => p.1 * p.2)).sum

/-- Determinant by Gaussian elimination with row pivoting; the fuel
argument is the dimension. -/
def detGo : Nat → List (List ℚ) → ℚ
  | 0, _ => 1
  | n + 1, m =>
    match m.findIdx? (fun row => row.headD 0 != 0) with
    | none => 0
    | some p =>
      (if p % 2 = 0 then (1 : ℚ) else -1) * (m.getD p []).headD 0 *
        detGo n ((m.eraseIdx p).map (fun r =>
          ((r.zip (m.getD p [])).map
            (fun ab => ab.1 - ab.2 * (r.headD 0 / (m.getD p []).headD 0))).drop 1))

/-- Determinant of a square rational matrix. -/
def detQ (m : List (List ℚ)) : ℚ := detGo m.length m

/-- Column j of m replaced by b. -/
def replaceCol (m : List (List ℚ)) (j : Nat) (b : List ℚ) : List (List ℚ) :=
  (m.zip b).map (fun rb => rb.1.set j rb.2)

/-- Cramer-rule solution of a square linear system; the systems built
below are nonsingular for every window length and order the source can
pass. -/
def cramerSolve (m : List (List ℚ)) (b : List ℚ) : List ℚ :=
  (List.range b.length).map (fun j => detQ (replaceCol m j b) / detQ m)

/-- Value of a polynomial given by low-degree-first coefficients. -/
def polyvalQ (cs : List ℚ) (t : ℚ) : ℚ := cs.foldr (fun c acc => c + t * acc) 0

/-- Least-squares fit of a degree-deg polynomial to the points
(j, ys j) for j below the length of ys, through the normal equations,
as the polyfit call inside scipy's interp-mode edge handling computes. -/
def polyfitQ (deg : Nat) (ys : List ℚ) : List ℚ :=
  cramerSolve
    (((List.range (deg + 1)).map (fun i =>
        (List.range ys.length).map (fun j => ((j : ℚ)) ^ i))).map (fun r =>
      ((List.range (deg + 1)).map (fun i =>
        (List.range ys.length).map (fun j => ((j : ℚ)) ^ i))).map (fun s => dotQ r s)))
    (((List.range (deg + 1)).map (fun i =>
        (List.range ys.length).map (fun j => ((j : ℚ)) ^ i))).map (fun r => dotQ r ys))

/-- The filter coefficients scipy.signal.savgol_coeffs computes for
derivative 0: the minimum-norm solution of the moment conditions,
obtained through the Gram system of the Vandermonde rows over the
window positions in convolution orientation. -/
def savgolCoeffs (w p : Nat) : List ℚ :=
  ((List.range w).map (fun j => ((((w / 2 : Nat) : Int) - (j : Int) : Int) : ℚ))).map
    (fun t => dotQ
      (cramerSolve
        (((List.range (p + 1)).map (fun i =>
            ((List.range w).map (fun j =>
              ((((w / 2 : Nat) : Int) - (j : Int) : Int) : ℚ))).map (fun u => u ^ i))).map
          (fun r =>
            ((List.range (p + 1)).map (fun i =>
              ((List.range w).map (fun j =>
                ((((w / 2 : Nat) : Int) - (j : Int) : Int) : ℚ))).map (fun u => u ^ i))).map
              (fun s => dotQ r s)))
        ((List.range (p + 1)).map (fun i => if i = 0 then (1 : ℚ) else 0)))
      ((List.range (p + 1)).map (fun i => t ^ i)))

/-- The smoothing scipy.signal.savgol_filter performs in its default
interp mode for derivative 0: central samples are the correlation of the
signal with the filter coefficients, and the first and last half windows
are replaced by the least-squares polynomial fitted to the first, resp.
last, full window, evaluated at the edge positions. -/
def savgolApply (w p : Nat) (x : List ℚ) : List ℚ :=
  (List.range x.length).map (fun i =>
    if i < w / 2 then polyvalQ (polyfitQ p (x.take w)) (i : ℚ)
    else if x.length - w / 2 ≤ i then
      polyvalQ (polyfitQ p (x.drop (x.length - w)))
        (((i : Int) - ((x.length : Int) - (w : Int)) : Int) : ℚ)
    else ((List.range w).map
      (fun k => (savgolCoeffs w p).getD k 0 * x.getD (i + k - w / 2) 0)).sum)

/-- Modelled from the scipy documentation of scipy.signal.savgol_filter
at the source's fixed arguments (default mode interp, deriv 0): it
raises ValueError when polyorder is not smaller than window_length, when
window_length exceeds the input size (the interp-mode requirement), or
when window_length is even (always odd here by construction of
window_len); otherwise it returns the same-length filtered sequence. -/
def savgol_filter (x : List ℚ) (window_length polyorder : Nat) : Except PyError (List ℚ) :=
  if window_length % 2 = 0 then Except.error PyError.valueError
  else if window_length ≤ polyorder then Except.error PyError.valueError
  else if x.length < window_length then Except.error PyError.valueError
  else Except.ok (savgolApply window_length polyorder x)

/-- Lines 51-59 of src/app.py: apply the filter with the window computed
from the sorted distance array's length and polyorder 3, falling back to
the raw (sorted) voltages when the filter raises. -/
def smoothStep (dists volts : List ℚ) : List ℚ :=
  match savgol_filter volts (windowLen dists.length) 3 with
  | Except.ok sm => sm
  | Except.error _ => volts

/-- The whole core of process_and_plot (lines 13-59 of src/app.py), up to
the plotting calls the spec scopes out: detect the format, extract the
distance and voltage sequences, sort both by distance, and smooth.  The
samples are returned as index-paired (distance, voltage) pairs, the
spec's SampleSet, together with the smoothed series. -/
def processLines (lines : Doc) : Except PyError (List (ℚ × ℚ) × List ℚ) :=
  match (if markerPresent lines then extractStructured lines
         else Except.ok (extractDelimited lines)) with
  | Except.error e => Except.error e
  | Except.ok dv =>
    match sortPair dv.1 dv.2 with
    | Except.error e => Except.error e
    | Except.ok sorted => Except.ok (sorted.1.zip sorted.2, smoothStep sorted.1 sorted.2)

/-- Position of the second marker line, as the spec words it: the first
marker line, then the next marker line after it. -/
def secondMarkerIdx (lines : Doc) : Option Nat :=
  match lines.findIdx? lineHasMarker with
  | none => none
  | some i =>
    match (lines.drop (i + 1)).findIdx? lineHasMarker with
    | none => none
    | some k => some (i + 1 + k)

/-- Row parse as claim C4 words it: split the stripped row on horizontal
tabs, discard the empty or whitespace-only entries, and parse the rest
as floats in order, failing when any retained entry fails. -/
def specParseRow (l : PyLine) : Option (List ℚ) :=
  if ((splitOnC '\t' (trimChars l)).filter (fun v => !(trimChars v).isEmpty)).all
      (fun v => (pyFloat v).isSome) then
    some (((splitOnC '\t' (trimChars l)).filter
      (fun v => !(trimChars v).isEmpty)).filterMap pyFloat)
  else none

/-- Structured extraction as claim C4 words it: the distance row sits two
lines past the second marker occurrence and the voltage row on the line
after it; reading past the document raises IndexError, and a retained
field that fails numeric parse raises ValueError. -/
def specStructuredExtract (lines : Doc) : Except PyError (List ℚ × List ℚ) :=
  match secondMarkerIdx lines with
  | none => Except.error PyError.indexError
  | some j =>
    match lines.get? (j + 2) with
    | none => Except.error PyError.indexError
    | some x =>
      match lines.get? (j + 3) with
      | none => Except.error PyError.indexError
      | some y =>
        match specParseRow x with
        | none => Except.error PyError.valueError
        | some ds =>
          match specParseRow y with
          | none => Except.error PyError.valueError
          | some vs => Except.ok (ds, vs)

/-- Window-length policy as claim C9 words it: the candidate is
min(11, N), decremented by one if even, clamped up to 3. -/
def specWindowLen (n : Nat) : Nat :=
  if (if (min 11 n) % 2 = 0 then min 11 n - 1 else min 11 n) < 3 then 3
  else if (min 11 n) % 2 = 0 then min 11 n - 1 else min 11 n

/-- A delimited line the loop on lines 30-38 either skips without any
effect or accepts as a full pair: blank, fewer than two comma fields,
first field unparseable, or both fields parseable. -/
def cleanLine (l : PyLine) : Bool :=
  (trimChars l).isEmpty || decide ((splitOnC ',' l).length < 2)
    || (pyFloat (trimChars ((splitOnC ',' l).getD 0 []))).isNone
    || ((pyFloat (trimChars ((splitOnC ',' l).getD 0 []))).isSome
        && (pyFloat (trimChars ((splitOnC ',' l).getD 1 []))).isSome)

/-- A delimited line that appends a full (distance, voltage) pair. -/
def acceptsLine (l : PyLine) : Bool :=
  !(trimChars l).isEmpty && !decide ((splitOnC ',' l).length < 2)
    && (pyFloat (trimChars ((splitOnC ',' l).getD 0 []))).isSome
    && (pyFloat (trimChars ((splitOnC ',' l).getD 1 []))).isSome

/-- A structured document whose marker appears only once, on its last
line: the extractor then reads the first two lines as data rows and the
pipeline succeeds. -/
def exSingleMarker : Doc :=
  [("1.0\t2.0").toList, ("3.0\t4.0").toList, ("***End_of_Header***").toList]

/-- A structured document of one line, the marker line itself. -/
def exMarkerOnly : Doc := [("***End_of_Header***").toList]

/-- A structured document whose distance row holds two values and whose
voltage row holds one. -/
def exLongerDistances : Doc :=
  [("***End_of_Header***").toList, ("***End_of_Header***").toList,
   ("ignored").toList, ("1.0\t2.0").toList, ("5.0").toList]

/-- The structured document of claim C4: markers on lines 0 and 5, data
rows on lines 7 and 8. -/
def exStructured : Doc :=
  [("***End_of_Header***").toList, ("a").toList, ("b").toList, ("c").toList,
   ("d").toList, ("***End_of_Header***").toList, ("e").toList,
   ("0.0\t1.0\t2.0").toList, ("5.1\t5.2\t5.3").toList]

/-- A delimited line whose first field parses and whose second does not. -/
def exHalfParsed : Doc := [("1.5,abc").toList]

/-- A delimited document whose only line is skipped without effect. -/
def exSkipped : Doc := [("abc,def").toList]

/-- A delimited document with one valid pair per line, recorded out of
distance order. -/
def exOutOfOrder : Doc := [("2.0,20").toList, ("1.0,10").toList]

/-- A delimited document with a single valid line. -/
def exOnePair : Doc := [("1.5,2.3").toList]

theorem takeIdxs_ok (v : List ℚ) :
    ∀ idxs : List Nat, (∀ i ∈ idxs, i < v.length) →
      takeIdxs v idxs = Except.ok (idxs.map (fun i => idxVal v i)) := by
  intro idxs
  induction idxs with
  | nil => intro _; rfl
  | cons i is ih =>
    intro h
    have hi : i < v.length := h i (by simp)
    have hv : v.get? i = some (idxVal v i) := by
      show v.get? i = some ((v.get? i).getD 0)
      rw [List.get?_eq_get hi]
      rfl
    rw [takeIdxs, hv, ih (fun j hj => h j (by simp [hj]))]
    rfl

theorem takeIdxs_err (v : List ℚ) :
    ∀ idxs : List Nat, (∃ i ∈ idxs, v.length ≤ i) →
      takeIdxs v idxs = Except.error PyError.indexError := by
  intro idxs
  induction idxs with
  | nil => rintro ⟨i, hi, -⟩; simp at hi
  | cons i is ih =>
    rintro ⟨j, hj, hlen⟩
    rw [takeIdxs]
    cases hv : v.get? i with
    | none => rfl
    | some x =>
      have hilt : i < v.length := (List.get?_eq_some.mp hv).1
      have hjis : j ∈ is := by
        rcases List.mem_cons.mp hj with h | h
        · subst h; exact absurd hlen (not_le.mpr hilt)
        · exact h
      rw [ih ⟨j, hjis, hlen⟩]

theorem takeIdxs_ok_len (v : List ℚ) :
    ∀ (idxs : List Nat) (xs : List ℚ), takeIdxs v idxs = Except.ok xs →
      xs.length = idxs.length := by
  intro idxs
  induction idxs with
  | nil => intro xs h; rw [takeIdxs] at h; cases h; rfl
  | cons i is ih =>
    intro xs h
    rw [takeIdxs] at h
    cases hv : v.get? i with
    | none => rw [hv] at h; cases h
    | some x =>
      rw [hv] at h
      cases ht : takeIdxs v is with
      | error e => rw [ht] at h; cases h
      | ok ys => rw [ht] at h; cases h; simp [ih ys ht]

theorem argsort_perm (d : List ℚ) : (argsort d).Perm (List.range d.length) :=
  List.perm_insertionSort _ _

theorem argsort_mem_lt (d : List ℚ) (i : Nat) (h : i ∈ argsort d) : i < d.length := by
  have := (argsort_perm d).mem_iff.mp h
  simpa using this

theorem argsort_length (d : List ℚ) : (argsort d).length = d.length := by
  simpa using (argsort_perm d).length_eq

theorem argsort_sorted (d : List ℚ) :
    List.Sorted (fun i j => idxVal d i ≤ idxVal d j) (argsort d) := by
  haveI : IsTotal Nat (fun i j => idxVal d i ≤ idxVal d j) := ⟨fun a b => le_total _ _⟩
  haveI : IsTrans Nat (fun i j => idxVal d i ≤ idxVal d j) :=
    ⟨fun a b c h1 h2 => le_trans h1 h2⟩
  exact List.sorted_insertionSort _ _

theorem sortPair_ok_of_le (d v : List ℚ) (h : d.length ≤ v.length) :
    sortPair d v =
      Except.ok ((argsort d).map (fun i => idxVal d i), (argsort d).map (fun i => idxVal v i)) := by
  have h1 := takeIdxs_ok d (argsort d) (fun i hi => argsort_mem_lt d i hi)
  have h2 := takeIdxs_ok v (argsort d)
    (fun i hi => lt_of_lt_of_le (argsort_mem_lt d i hi) h)
  rw [sortPair, h1, h2]

theorem sortPair_err_of_lt (d v : List ℚ) (h : v.length < d.length) :
    sortPair d v = Except.error PyError.indexError := by
  have h1 := takeIdxs_ok d (argsort d) (fun i hi => argsort_mem_lt d i hi)
  have hmem : v.length ∈ argsort d :=
    (argsort_perm d).mem_iff.mpr (List.mem_range.mpr h)
  have h2 := takeIdxs_err v (argsort d) ⟨v.length, hmem, le_refl _⟩
  rw [sortPair, h1, h2]

theorem sortPair_ok_inv (d v ds vs : List ℚ) (h : sortPair d v = Except.ok (ds, vs)) :
    ds = (argsort d).map (fun i => idxVal d i) ∧ vs.length = (argsort d).length := by
  rw [sortPair, takeIdxs_ok d (argsort d) (fun i hi => argsort_mem_lt d i hi)] at h
  cases ht : takeIdxs v (argsort d) with
  | error e => rw [ht] at h; cases h
  | ok xs =>
    rw [ht] at h
    cases h
    exact ⟨rfl, takeIdxs_ok_len v _ _ ht⟩

theorem savgolApply_length (w p : Nat) (x : List ℚ) :
    (savgolApply w p x).length = x.length := by
  simp [savgolApply]

theorem smoothStep_length (d v : List ℚ) : (smoothStep d v).length = v.length := by
  rw [smoothStep]
  cases hs : savgol_filter v (windowLen d.length) 3 with
  | error e => rfl
  | ok sm =>
    show sm.length = v.length
    rw [savgol_filter] at hs
    split_ifs at hs
    all_goals first
      | exact Except.noConfusion hs
      | (cases hs; exact savgolApply_length _ _ _)

theorem smoothStep_fallback (d v : List ℚ) (h : windowLen d.length = 3) :
    smoothStep d v = v := by
  rw [smoothStep, savgol_filter, h]
  norm_num

theorem windowLen_le_four (n : Nat) (h : n ≤ 4) : windowLen n = 3 := by
  interval_cases n <;> decide

theorem parseFloats_eq_spec (vs : List (List Char)) :
    parseFloats vs =
      if vs.all (fun v => (pyFloat v).isSome) then some (vs.filterMap pyFloat) else none := by
  induction vs with
  | nil => rfl
  | cons v t ih =>
    rw [parseFloats, ih]
    cases hv : pyFloat v with
    | none => simp [hv]
    | some x =>
      simp only [List.all_cons, hv, Option.isSome_some, Bool.true_and, List.filterMap_cons]
      by_cases ht : t.all (fun v => (pyFloat v).isSome) <;> simp [ht, hv]

theorem parseRow_eq_spec (l : PyLine) : parseRow l = specParseRow l := by
  rw [parseRow, specParseRow, parseFloats_eq_spec]

theorem findSecond_zero : ∀ (ls : List PyLine) (i c : Nat),
    ls.countP lineHasMarker + c < 2 → findSecond ls i c = 0 := by
  intro ls
  induction ls with
  | nil => intro i c _; rfl
  | cons l t ih =>
    intro i c h
    rw [List.countP_cons] at h
    rw [findSecond]
    by_cases hl : lineHasMarker l
    · rw [if_pos hl] at h
      rw [if_pos hl, if_neg (by omega : ¬(c + 1 = 2))]
      exact ih (i + 1) (c + 1) (by omega)
    · rw [if_neg hl] at h
      rw [if_neg hl]
      exact ih (i + 1) c (by omega)

theorem dataStartIdx_of_lt_two (lines : Doc) (h : markerCount lines < 2) :
    dataStartIdx lines = 0 :=
  findSecond_zero lines 0 0 (by rw [markerCount] at h; omega)

theorem findSecond_one : ∀ (ls : List PyLine) (i : Nat),
    1 ≤ ls.countP lineHasMarker →
    ∃ k, ls.findIdx? lineHasMarker = some k ∧ findSecond ls i 1 = i + k + 2 := by
  intro ls
  induction ls with
  | nil => intro i h; simp at h
  | cons l t ih =>
    intro i h
    by_cases hl : lineHasMarker l
    · refine ⟨0, ?_, ?_⟩
      · simp [List.findIdx?_cons, hl]
      · rw [findSecond, if_pos hl, if_pos rfl]
    · rw [List.countP_cons, if_neg hl] at h
      obtain ⟨k, hk1, hk2⟩ := ih (i + 1) (by omega)
      refine ⟨k + 1, ?_, ?_⟩
      · simp [List.findIdx?_cons, hl, List.findIdx?_succ, hk1]
      · rw [findSecond, if_neg hl, hk2]; omega

theorem secondMarkerIdx_cons_neg (l : PyLine) (t : List PyLine)
    (hl : ¬ lineHasMarker l = true) :
    secondMarkerIdx (l :: t) = (secondMarkerIdx t).map (fun x => x + 1) := by
  rw [secondMarkerIdx, secondMarkerIdx]
  simp only [List.findIdx?_cons, hl, Bool.false_eq_true, if_false, List.findIdx?_succ]
  cases hf : List.findIdx? lineHasMarker t with
  | none => simp
  | some a =>
    simp only [Option.map_some', List.drop_succ_cons]
    cases hg : List.findIdx? lineHasMarker (t.drop (a + 1)) with
    | none => simp [hg]
    | some b =>
      simp only [hg, Option.map_some', Option.some.injEq]
      omega

theorem findSecond_two : ∀ (ls : List PyLine) (i : Nat),
    2 ≤ ls.countP lineHasMarker →
    ∃ j, secondMarkerIdx ls = some j ∧ findSecond ls i 0 = i + j + 2 := by
  intro ls
  induction ls with
  | nil => intro i h; simp at h
  | cons l t ih =>
    intro i h
    rw [List.countP_cons] at h
    by_cases hl : lineHasMarker l
    · rw [if_pos hl] at h
      obtain ⟨k, hk1, hk2⟩ := findSecond_one t (i + 1) (by omega)
      refine ⟨1 + k, ?_, ?_⟩
      · rw [secondMarkerIdx]
        simp only [List.findIdx?_cons, hl, if_true, List.drop_succ_cons, List.drop_zero]
        rw [hk1]
      · rw [findSecond, if_pos hl, if_neg (by omega : ¬(0 + 1 = 2)), hk2]; omega
    · rw [if_neg hl] at h
      obtain ⟨j, hj1, hj2⟩ := ih (i + 1) (by omega)
      refine ⟨j + 1, ?_, ?_⟩
      · rw [secondMarkerIdx_cons_neg l t hl, hj1]; rfl
      · rw [findSecond, if_neg hl, hj2]; omega

theorem dataStartIdx_of_two (lines : Doc) (h : 2 ≤ markerCount lines) :
    ∃ j, secondMarkerIdx lines = some j ∧ dataStartIdx lines = j + 2 := by
  obtain ⟨j, h1, h2⟩ := findSecond_two lines 0 h
  exact ⟨j, h1, by rw [dataStartIdx, h2]; omega⟩

theorem delimStep_skip (a : List ℚ × List ℚ) (l : PyLine)
    (hc : cleanLine l = true) (hna : acceptsLine l = false) : delimStep a l = a := by
  rw [delimStep]
  by_cases h1 : (trimChars l).isEmpty
  · rw [if_pos h1]
  · rw [if_neg h1]
    by_cases h2 : (splitOnC ',' l).length < 2
    · rw [if_pos h2]
    · rw [if_neg h2]
      cases hf0 : pyFloat (trimChars ((splitOnC ',' l).getD 0 [])) with
      | none => rfl
      | some d =>
        cases hf1 : pyFloat (trimChars ((splitOnC ',' l).getD 1 [])) with
        | none =>
          exfalso
          rw [cleanLine, hf0, hf1] at hc
          simp [h1, h2] at hc
        | some v =>
          exfalso
          rw [acceptsLine, hf0, hf1] at hna
          simp [h1, h2] at hna

theorem delimStep_clean_eqlen (a : List ℚ × List ℚ) (l : PyLine)
    (hc : cleanLine l = true) (hlen : a.1.length = a.2.length) :
    (delimStep a l).1.length = (delimStep a l).2.length := by
  rw [delimStep]
  by_cases h1 : (trimChars l).isEmpty
  · rw [if_pos h1]; exact hlen
  · rw [if_neg h1]
    by_cases h2 : (splitOnC ',' l).length < 2
    · rw [if_pos h2]; exact hlen
    · rw [if_neg h2]
      cases hf0 : pyFloat (trimChars ((splitOnC ',' l).getD 0 [])) with
      | none => exact hlen
      | some d =>
        cases hf1 : pyFloat (trimChars ((splitOnC ',' l).getD 1 [])) with
        | none =>
          exfalso
          rw [cleanLine, hf0, hf1] at hc
          simp [h1, h2] at hc
        | some v =>
          simp [hlen]

theorem foldl_delim_eqlen : ∀ (lines : List PyLine) (a : List ℚ × List ℚ),
    lines.all cleanLine = true → a.1.length = a.2.length →
    (lines.foldl delimStep a).1.length = (lines.foldl delimStep a).2.length := by
  intro lines
  induction lines with
  | nil => intro a _ hlen; exact hlen
  | cons l t ih =>
    intro a hall hlen
    rw [List.all_cons] at hall
    obtain ⟨h1, h2⟩ := Bool.and_eq_true_iff.mp hall
    rw [List.foldl_cons]
    exact ih _ h2 (delimStep_clean_eqlen a l h1 hlen)

theorem foldl_delim_id : ∀ (lines : List PyLine) (a : List ℚ × List ℚ),
    lines.all cleanLine = true → lines.all (fun l => !acceptsLine l) = true →
    lines.foldl delimStep a = a := by
  intro lines
  induction lines with
  | nil => intro a _ _; rfl
  | cons l t ih =>
    intro a hall hna
    rw [List.all_cons] at hall hna
    obtain ⟨h1, h2⟩ := Bool.and_eq_true_iff.mp hall
    obtain ⟨h3, h4⟩ := Bool.and_eq_true_iff.mp hna
    rw [List.foldl_cons, delimStep_skip a l h1 (by simpa using h3)]
    exact ih a h2 h4

theorem processLines_structured (lines : Doc) (hm : markerPresent lines = true) :
    processLines lines =
      match extractStructured lines with
      | Except.error e => Except.error e
      | Except.ok dv =>
        match sortPair dv.1 dv.2 with
        | Except.error e => Except.error e
        | Except.ok sorted =>
          Except.ok (sorted.1.zip sorted.2, smoothStep sorted.1 sorted.2) := by
  rw [processLines]
  simp only [hm, if_true]

theorem processLines_delim (lines : Doc) (hm : markerPresent lines = false) :
    processLines lines =
      match sortPair (extractDelimited lines).1 (extractDelimited lines).2 with
      | Except.error e => Except.error e
      | Except.ok sorted =>
        Except.ok (sorted.1.zip sorted.2, smoothStep sorted.1 sorted.2) := by
  rw [processLines]
  simp only [hm, Bool.false_eq_true, if_false]

/-- C1 (corrected): the source classifies no error.  On the structured
path, when the marker occurs fewer than two times, data_start_idx keeps
its initial value 0 and the first two lines are read as the data rows, so
the pipeline need not fail at all; when reading past the document it
raises a plain IndexError and when a retained field fails numeric parse a
plain ValueError, and whichever generic error extraction raises is what
the pipeline reports. -/
theorem structuredErrorsAreGeneric (lines : Doc) (hm : markerPresent lines = true) :
    (markerCount lines < 2 → dataStartIdx lines = 0)
    ∧ (lines.length ≤ dataStartIdx lines + 1 →
        extractStructured lines = Except.error PyError.indexError)
    ∧ (∀ x y, lines.get? (dataStartIdx lines) = some x →
        lines.get? (dataStartIdx lines + 1) = some y →
        (parseRow x = none ∨ parseRow y = none) →
        extractStructured lines = Except.error PyError.valueError)
    ∧ (∀ e, extractStructured lines = Except.error e →
        processLines lines = Except.error e) := by
  refine ⟨fun h => dataStartIdx_of_lt_two lines h, ?_, ?_, ?_⟩
  · intro hlen
    rw [extractStructured]
    cases hx : lines.get? (dataStartIdx lines) with
    | none => rfl
    | some x => rw [List.get?_eq_none.mpr hlen]
  · intro x y hx hy hp
    rw [extractStructured, hx, hy]
    show (match parseRow x with
      | none => Except.error PyError.valueError
      | some ds =>
        match parseRow y with
        | none => Except.error PyError.valueError
        | some vs => Except.ok (ds, vs)) = Except.error PyError.valueError
    rcases hp with hpx | hpy
    · rw [hpx]
    · cases hpx : parseRow x with
      | none => rfl
      | some ds => rw [hpy]
  · intro e he
    rw [processLines_structured lines hm, he]

/-- C1 counterexample: a structured document whose marker occurs exactly
once, for which the claim requires a classified failure; the pipeline
instead succeeds, with the first two lines parsed as the data rows. -/
theorem singleMarkerDocSucceeds :
    markerPresent exSingleMarker = true ∧ markerCount exSingleMarker = 1 ∧
      processLines exSingleMarker = Except.ok ([(1, 3), (2, 4)], [3, 4]) :=
  ⟨by decide, by decide, by with_unfolding_all rfl⟩

/-- C1 witness: a document consisting of the marker line alone has the
default data offset 0, and reading line 1 past its end raises the generic
IndexError, which the pipeline reports. -/
theorem structuredErrorsAreGenericWitness :
    markerPresent exMarkerOnly = true ∧ markerCount exMarkerOnly < 2 ∧
      dataStartIdx exMarkerOnly = 0 ∧
      extractStructured exMarkerOnly = Except.error PyError.indexError ∧
      processLines exMarkerOnly = Except.error PyError.indexError := by
  have h := structuredErrorsAreGeneric exMarkerOnly (by decide)
  exact ⟨by decide, by decide, h.1 (by decide), h.2.1 (by decide),
    h.2.2.2 PyError.indexError (h.2.1 (by decide))⟩

/-- C3 (corrected): the normalizer keeps exactly one entry per distance
index, pairing each retained index i as (distance i, voltage i); the
unmatched voltage tail is discarded when the voltages are at least as
many, but when the distances outnumber the voltages the voltage indexing
raises IndexError instead of truncating. -/
theorem normalizePairsTruncatesOrFails (d v : List ℚ) :
    (d.length ≤ v.length →
      sortPair d v = Except.ok
        ((argsort d).map (fun i => idxVal d i), (argsort d).map (fun i => idxVal v i)))
    ∧ (v.length < d.length → sortPair d v = Except.error PyError.indexError)
    ∧ (argsort d).length = d.length
    ∧ ((argsort d).map (fun i => idxVal d i)).zip ((argsort d).map (fun i => idxVal v i)) =
        (argsort d).map (fun i => (idxVal d i, idxVal v i)) :=
  ⟨fun h => sortPair_ok_of_le d v h, fun h => sortPair_err_of_lt d v h,
    argsort_length d, List.zip_map' _ _ _⟩

/-- C3 counterexample: a structured document whose distance row has two
entries and whose voltage row has one; instead of truncating to the
shorter length the pipeline fails with an IndexError. -/
theorem longerDistancesRaiseIndexError :
    extractStructured exLongerDistances = Except.ok ([1, 2], [5]) ∧
      processLines exLongerDistances = Except.error PyError.indexError :=
  ⟨by with_unfolding_all rfl, by with_unfolding_all rfl⟩

/-- C3 witness: two distances against three voltages normalize without
failing, keeping one pair per distance index. -/
theorem normalizePairsWitness :
    ([(2 : ℚ), 1].length ≤ [(5 : ℚ), 6, 7].length) ∧
      sortPair [(2 : ℚ), 1] [(5 : ℚ), 6, 7] =
        Except.ok ((argsort [(2 : ℚ), 1]).map (fun i => idxVal [(2 : ℚ), 1] i),
          (argsort [(2 : ℚ), 1]).map (fun i => idxVal [(5 : ℚ), 6, 7] i)) :=
  ⟨by decide, (normalizePairsTruncatesOrFails [(2 : ℚ), 1] [(5 : ℚ), 6, 7]).1 (by decide)⟩

/-- C4 (confirmed): on every document whose marker occurs at least twice,
the loop-based extraction of the source equals the spec-worded one: the
distance row is the line two past the second marker occurrence, the
voltage row the line after it, each split on tabs, whitespace-only
entries discarded and the rest parsed as floats in order. -/
theorem structuredExtractMatchesSpec (lines : Doc) (h : 2 ≤ markerCount lines) :
    extractStructured lines = specStructuredExtract lines := by
  obtain ⟨j, hj, hd⟩ := dataStartIdx_of_two lines h
  have hspec : specStructuredExtract lines =
      (match lines.get? (j + 2) with
       | none => Except.error PyError.indexError
       | some x =>
         match lines.get? (j + 3) with
         | none => Except.error PyError.indexError
         | some y =>
           match specParseRow x with
           | none => Except.error PyError.valueError
           | some ds =>
             match specParseRow y with
             | none => Except.error PyError.valueError
             | some vs => Except.ok (ds, vs)) := by
    rw [specStructuredExtract, hj]
  rw [extractStructured, hd, (by omega : j + 2 + 1 = j + 3), hspec]
  simp only [parseRow_eq_spec]

/-- C4 witness: the claim's document, markers on lines 0 and 5 and data
rows on lines 7 and 8, extracts as the spec says and yields the SampleSet
(0, 5.1), (1, 5.2), (2, 5.3). -/
theorem structuredExtractMatchesSpecWitness :
    2 ≤ markerCount exStructured ∧
      extractStructured exStructured = specStructuredExtract exStructured ∧
      processLines exStructured =
        Except.ok ([((0 : ℚ), (5.1 : ℚ)), (1, 5.2), (2, 5.3)], [(5.1 : ℚ), 5.2, 5.3]) :=
  ⟨by decide, structuredExtractMatchesSpec exStructured (by decide),
    by with_unfolding_all rfl⟩

/-- C5 (confirmed): for every voltage sequence of positive length (and the
matching distance length the pipeline guarantees), the smoothing step
returns a sequence of exactly the input length, on the filter path and on
the fallback path alike. -/
theorem smootherPreservesLength (dists volts : List ℚ)
    (hlen : dists.length = volts.length) (hpos : 1 ≤ volts.length) :
    (smoothStep dists volts).length = volts.length :=
  smoothStep_length dists volts

/-- C5 witness at a single-sample input. -/
theorem smootherPreservesLengthWitness :
    ([(0 : ℚ)].length = [(9 : ℚ)].length) ∧ 1 ≤ [(9 : ℚ)].length ∧
      (smoothStep [(0 : ℚ)] [(9 : ℚ)]).length = [(9 : ℚ)].length :=
  ⟨by decide, by decide, smootherPreservesLength [0] [9] (by decide) (by decide)⟩

/-- C6 (confirmed): for an input of length 1 or 2 the window is clamped to
3, the filter call raises, and the smoothing step returns the input
voltages unchanged instead of failing the pipeline. -/
theorem smootherSmallInputUnchanged (dists volts : List ℚ)
    (hlen : dists.length = volts.length)
    (hsmall : volts.length = 1 ∨ volts.length = 2) :
    smoothStep dists volts = volts := by
  rcases hsmall with h | h <;>
    exact smoothStep_fallback _ _ (windowLen_le_four _ (by omega))

/-- C6 witness at a two-sample input. -/
theorem smootherSmallInputUnchangedWitness :
    ([(0 : ℚ), 1].length = [(5 : ℚ), 6].length) ∧
      ([(5 : ℚ), 6].length = 1 ∨ [(5 : ℚ), 6].length = 2) ∧
      smoothStep [(0 : ℚ), 1] [(5 : ℚ), 6] = [(5 : ℚ), 6] :=
  ⟨by decide, Or.inr (by decide),
    smootherSmallInputUnchanged [0, 1] [5, 6] (by decide) (Or.inr (by decide))⟩

/-- C7 (corrected): on a delimited document every line of which is blank,
has fewer than two comma fields, has an unparseable first field, or has
both fields parseable, the pipeline succeeds, and with no fully valid
line it returns the empty SampleSet and empty SmoothedSeries; the
amendment excludes lines whose first field parses while the second does
not, which leave an unpaired distance behind and make the pipeline fail
(see the counterexample). -/
theorem delimitedCleanNeverFails (lines : Doc) (hm : markerPresent lines = false)
    (hc : lines.all cleanLine = true) :
    (∃ r, processLines lines = Except.ok r) ∧
      (lines.all (fun l => !acceptsLine l) = true →
        processLines lines = Except.ok ([], [])) := by
  have hlen : (extractDelimited lines).1.length = (extractDelimited lines).2.length :=
    foldl_delim_eqlen lines ([], []) hc rfl
  have hsp := sortPair_ok_of_le (extractDelimited lines).1 (extractDelimited lines).2
    (le_of_eq hlen)
  constructor
  · have hrun : processLines lines = Except.ok
        (((argsort (extractDelimited lines).1).map
            (fun i => idxVal (extractDelimited lines).1 i)).zip
          ((argsort (extractDelimited lines).1).map
            (fun i => idxVal (extractDelimited lines).2 i)),
         smoothStep
           ((argsort (extractDelimited lines).1).map
             (fun i => idxVal (extractDelimited lines).1 i))
           ((argsort (extractDelimited lines).1).map
             (fun i => idxVal (extractDelimited lines).2 i))) := by
      rw [processLines_delim lines hm, hsp]
    exact ⟨_, hrun⟩
  · intro hna
    have hid : extractDelimited lines = ([], []) := foldl_delim_id lines ([], []) hc hna
    rw [processLines_delim lines hm, hid]
    with_unfolding_all rfl

/-- C7 counterexample: the delimited line 1.5,abc parses its first field,
fails on the second, and leaves the distance behind; the pipeline then
fails with an IndexError, against the claim that extraction never fails
and such lines are silently skipped. -/
theorem halfParsedLineFailsAtPipeline :
    markerPresent exHalfParsed = false ∧
      extractDelimited exHalfParsed = ([(1.5 : ℚ)], []) ∧
      processLines exHalfParsed = Except.error PyError.indexError :=
  ⟨by decide, by with_unfolding_all rfl, by with_unfolding_all rfl⟩

/-- C7 witness: the document of the single line abc,def is processed
without failure into the empty result, and 1.5,2.3 yields the sample
(1.5, 2.3). -/
theorem delimitedCleanNeverFailsWitness :
    markerPresent exSkipped = false ∧ exSkipped.all cleanLine = true ∧
      exSkipped.all (fun l => !acceptsLine l) = true ∧
      processLines exSkipped = Except.ok ([], []) ∧
      processLines exOnePair = Except.ok ([((1.5 : ℚ), (2.3 : ℚ))], [(2.3 : ℚ)]) :=
  ⟨by decide, by with_unfolding_all rfl, by with_unfolding_all rfl,
    (delimitedCleanNeverFails exSkipped (by decide) (by with_unfolding_all rfl)).2
      (by with_unfolding_all rfl),
    by with_unfolding_all rfl⟩

/-- C8 (confirmed): every successful pipeline run, structured or
delimited, returns a SampleSet whose distances are in non-decreasing
order. -/
theorem samplesSortedByDistance (lines : Doc) (s : List (ℚ × ℚ)) (sm : List ℚ)
    (h : processLines lines = Except.ok (s, sm)) :
    List.Sorted (fun a b => a ≤ b) (s.map Prod.fst) := by
  rw [processLines] at h
  cases hext : (if markerPresent lines then extractStructured lines
      else Except.ok (extractDelimited lines)) with
  | error e => rw [hext] at h; cases h
  | ok dv =>
    rw [hext] at h
    replace h : (match sortPair dv.1 dv.2 with
        | Except.error e => Except.error e
        | Except.ok sorted =>
          Except.ok (sorted.1.zip sorted.2, smoothStep sorted.1 sorted.2)) =
        Except.ok (s, sm) := h
    cases hsp : sortPair dv.1 dv.2 with
    | error e => rw [hsp] at h; cases h
    | ok pr =>
      rw [hsp] at h
      replace h : Except.ok (pr.1.zip pr.2, smoothStep pr.1 pr.2) =
          Except.ok (s, sm) := h
      cases h
      obtain ⟨hds, hlen⟩ := sortPair_ok_inv dv.1 dv.2 pr.1 pr.2 (by rw [hsp])
      have hmapfst : (pr.1.zip pr.2).map Prod.fst = pr.1 := by
        apply List.map_fst_zip
        rw [hds, List.length_map, hlen]
      rw [hmapfst, hds]
      exact List.Pairwise.map _ (fun a b hab => hab) (argsort_sorted dv.1)

/-- C8 witness: the delimited document recorded out of distance order
succeeds and its samples come back sorted by distance. -/
theorem samplesSortedByDistanceWitness :
    processLines exOutOfOrder = Except.ok ([((1 : ℚ), (10 : ℚ)), (2, 20)], [(10 : ℚ), 20]) ∧
      List.Sorted (fun a b => a ≤ b)
        ([((1 : ℚ), (10 : ℚ)), (2, 20)].map Prod.fst) := by
  have h : processLines exOutOfOrder =
      Except.ok ([((1 : ℚ), (10 : ℚ)), (2, 20)], [(10 : ℚ), 20]) := by
    with_unfolding_all rfl
  exact ⟨h, samplesSortedByDistance exOutOfOrder _ _ h⟩

/-- C9 (corrected): the computed window length is always odd and matches
the claimed candidate rule (min(11, N), decremented by one if even,
clamped up to 3), but it exceeds N when N is below 3; it stays within N
exactly from N = 3 on. -/
theorem windowLenOddClamped (n : Nat) :
    windowLen n % 2 = 1 ∧ (3 ≤ n → windowLen n ≤ n) ∧ windowLen n = specWindowLen n := by
  unfold windowLen specWindowLen
  split_ifs <;> omega

/-- C9 counterexample: at input length 1 the clamped window is 3, which
exceeds the length, against the claim that the window never exceeds N. -/
theorem windowExceedsTinyInput : windowLen 1 = 3 ∧ ¬ windowLen 1 ≤ 1 := by
  decide

/-- C9 witness at length 5: odd window, within bounds, equal to the
spec-worded candidate rule. -/
theorem windowLenOddClampedWitness :
    windowLen 5 % 2 = 1 ∧ (3 ≤ 5 ∧ windowLen 5 ≤ 5) ∧ windowLen 5 = specWindowLen 5 :=
  ⟨(windowLenOddClamped 5).1, ⟨by decide, (windowLenOddClamped 5).2.1 (by decide)⟩,
    (windowLenOddClamped 5).2.2⟩

/-- C10 (confirmed): for inputs of length 3 or 4 the window is 3, not
above the fixed polyorder 3, so the filter raises and the smoothing step
returns the voltages unchanged. -/
theorem smootherWindowThreeFallback (dists volts : List ℚ)
    (hlen : dists.length = volts.length)
    (h34 : volts.length = 3 ∨ volts.length = 4) :
    smoothStep dists volts = volts := by
  rcases h34 with h | h <;>
    exact smoothStep_fallback _ _ (windowLen_le_four _ (by omega))

/-- C10 witness at a three-sample input. -/
theorem smootherWindowThreeFallbackWitness :
    ([(0 : ℚ), 1, 2].length = [(7 : ℚ), 8, 9].length) ∧
      ([(7 : ℚ), 8, 9].length = 3 ∨ [(7 : ℚ), 8, 9].length = 4) ∧
      smoothStep [(0 : ℚ), 1, 2] [(7 : ℚ), 8, 9] = [(7 : ℚ), 8, 9] :=
  ⟨by decide, Or.inl (by decide),
    smootherWindowThreeFallback [0, 1, 2] [7, 8, 9] (by decide) (Or.inl (by decide))⟩

end ZScan
